import Mathlib

/-!
# Verification of the KBO_Classifier feature-extraction pipeline

Shallow embedding of `src/simulate_and_parse_backend.ipynb` over the rationals.

The source works on numpy float arrays.  We model the numeric values by `ℚ`.
`np.std` ends in a square root, which is not a rational operation, so the
embedding is parameterized by an abstract square-root function `sq : ℚ → ℚ`;
theorems either hold for every `sq` or assume only the properties of the real
square root that the source relies on (`sq 0 = 0`, nonnegativity on
nonnegative inputs).

A `101 × 6` trajectory array is modelled as `Fin (m+2) → Fin (n+6) → ℚ` with
`m = 99`, `n = 0`: row count `m+2` and column count `n+6` are kept in this
form because `parse` requires at least two rows (it takes first differences
and then minima over them) and at least six columns (it reads statistics of
the five element columns after the time column).
-/

namespace KBO

/-- `np.amin(·, axis=0)` on one column: least value of a nonempty family. -/
def npamin {ι : Type} [Fintype ι] [Nonempty ι] (f : ι → ℚ) : ℚ :=
  Finset.univ.inf' Finset.univ_nonempty f

/-- `np.amax(·, axis=0)` on one column: greatest value of a nonempty family. -/
def npamax {ι : Type} [Fintype ι] [Nonempty ι] (f : ι → ℚ) : ℚ :=
  Finset.univ.sup' Finset.univ_nonempty f

/-- `np.mean(·, axis=0)` on one column: sum divided by the number of rows. -/
def npmean {ι : Type} [Fintype ι] (f : ι → ℚ) : ℚ :=
  (∑ i, f i) / (Fintype.card ι : ℚ)

/-- `np.std(·, axis=0)` on one column: square root of the mean squared
deviation from the mean (population convention, divisor `N`).  The square
root is the abstract parameter `sq`. -/
def npstd {ι : Type} [Fintype ι] (sq : ℚ → ℚ) (f : ι → ℚ) : ℚ :=
  sq (npmean fun i => (f i - npmean f) ^ 2)

/-- Column `j+1` of the data array (`data[:, 1:]` restricted to one column):
the values of one orbital element at every row. -/
def elemCol (m n : ℕ) (data : Fin (m + 2) → Fin (n + 6) → ℚ) (j : Fin (n + 5)) :
    Fin (m + 2) → ℚ :=
  fun i => data i j.succ

/-- One column of `dxdt = (data[1:,1:] - data[:-1,1:]) / (data[1:,0] - data[:-1,0])`:
first difference of element `j+1` between consecutive rows divided by the
corresponding first difference of the time column. -/
def rateCol (m n : ℕ) (data : Fin (m + 2) → Fin (n + 6) → ℚ) (j : Fin (n + 5)) :
    Fin (m + 1) → ℚ :=
  fun i => (data i.succ j.succ - data i.castSucc j.succ) /
    (data i.succ 0 - data i.castSucc 0)

/-- Index of element `k` (of `inds = [0,1,2,3,4]`) into the `n+5` non-time
columns. -/
def elemIdx (n : ℕ) (k : Fin 5) : Fin (n + 5) :=
  Fin.castLE (Nat.le_add_left 5 n) k

/-- The local variable `features` of the source function `parse`: the flat
list of 55 statistics, assembled by the double loop
`for i in inds: for a in arrs: features += [a[i]]` over
`arrs = [initials, finals, mins, means, maxes, stdev, dels, mindxdt,
meandxdt, maxdxdt, deldxdt]`. -/
def parseRow (sq : ℚ → ℚ) (m n : ℕ) (data : Fin (m + 2) → Fin (n + 6) → ℚ) : List ℚ :=
  let initials : Fin (n + 5) → ℚ := fun j => elemCol m n data j 0
  let finals : Fin (n + 5) → ℚ := fun j => elemCol m n data j (Fin.last (m + 1))
  let mins : Fin (n + 5) → ℚ := fun j => npamin (elemCol m n data j)
  let maxes : Fin (n + 5) → ℚ := fun j => npamax (elemCol m n data j)
  let dels : Fin (n + 5) → ℚ := fun j => maxes j - mins j
  let means : Fin (n + 5) → ℚ := fun j => npmean (elemCol m n data j)
  let stdev : Fin (n + 5) → ℚ := fun j => npstd sq (elemCol m n data j)
  let mindxdt : Fin (n + 5) → ℚ := fun j => npamin (rateCol m n data j)
  let meandxdt : Fin (n + 5) → ℚ := fun j => npmean (rateCol m n data j)
  let maxdxdt : Fin (n + 5) → ℚ := fun j => npamax (rateCol m n data j)
  let deldxdt : Fin (n + 5) → ℚ := fun j => maxdxdt j - mindxdt j
  let arrs : List (Fin (n + 5) → ℚ) :=
    [initials, finals, mins, means, maxes, stdev, dels, mindxdt, meandxdt, maxdxdt, deldxdt]
  (List.finRange 5).flatMap fun i => arrs.map fun a => a (elemIdx n i)

/-- The source function `parse`: the final
`np.array(features).reshape(1, -1)` makes the flat feature list a single-row
two-dimensional array, modelled as a one-element list of rows. -/
def parse (sq : ℚ → ℚ) (m n : ℕ) (data : Fin (m + 2) → Fin (n + 6) → ℚ) : List (List ℚ) :=
  [parseRow sq m n data]

/-- Group `k` of the feature row: the 11 consecutive entries describing
element `k` (positions `11*k .. 11*k+10`). -/
def featGroup (sq : ℚ → ℚ) (m n : ℕ) (data : Fin (m + 2) → Fin (n + 6) → ℚ)
    (k : Fin 5) : List ℚ :=
  ((parseRow sq m n data).drop (11 * k.val)).take 11

lemma parseRow_length (sq : ℚ → ℚ) (m n : ℕ) (data : Fin (m + 2) → Fin (n + 6) → ℚ) :
    (parseRow sq m n data).length = 55 := rfl

lemma featGroup_eq (sq : ℚ → ℚ) (m n : ℕ) (data : Fin (m + 2) → Fin (n + 6) → ℚ)
    (k : Fin 5) :
    featGroup sq m n data k =
      [elemCol m n data (elemIdx n k) 0,
       elemCol m n data (elemIdx n k) (Fin.last (m + 1)),
       npamin (elemCol m n data (elemIdx n k)),
       npmean (elemCol m n data (elemIdx n k)),
       npamax (elemCol m n data (elemIdx n k)),
       npstd sq (elemCol m n data (elemIdx n k)),
       npamax (elemCol m n data (elemIdx n k)) - npamin (elemCol m n data (elemIdx n k)),
       npamin (rateCol m n data (elemIdx n k)),
       npmean (rateCol m n data (elemIdx n k)),
       npamax (rateCol m n data (elemIdx n k)),
       npamax (rateCol m n data (elemIdx n k)) - npamin (rateCol m n data (elemIdx n k))] := by
  fin_cases k <;> rfl

lemma npamin_le {ι : Type} [Fintype ι] [Nonempty ι] (f : ι → ℚ) (i : ι) :
    npamin f ≤ f i :=
  Finset.inf'_le f (Finset.mem_univ i)

lemma le_npamax {ι : Type} [Fintype ι] [Nonempty ι] (f : ι → ℚ) (i : ι) :
    f i ≤ npamax f :=
  Finset.le_sup' f (Finset.mem_univ i)

lemma npamin_le_npamax {ι : Type} [Fintype ι] [Nonempty ι] (f : ι → ℚ) :
    npamin f ≤ npamax f :=
  le_trans (npamin_le f (Classical.arbitrary ι)) (le_npamax f (Classical.arbitrary ι))

lemma card_cast_pos {ι : Type} [Fintype ι] [Nonempty ι] :
    (0 : ℚ) < (Fintype.card ι : ℚ) := by
  exact_mod_cast Fintype.card_pos

lemma npamin_le_npmean {ι : Type} [Fintype ι] [Nonempty ι] (f : ι → ℚ) :
    npamin f ≤ npmean f := by
  rw [npmean, le_div_iff₀ card_cast_pos]
  have h := Finset.card_nsmul_le_sum Finset.univ f (npamin f)
    (fun i _ => npamin_le f i)
  rw [nsmul_eq_mul, Finset.card_univ] at h
  linarith

lemma npmean_le_npamax {ι : Type} [Fintype ι] [Nonempty ι] (f : ι → ℚ) :
    npmean f ≤ npamax f := by
  rw [npmean, div_le_iff₀ card_cast_pos]
  have h := Finset.sum_le_card_nsmul Finset.univ f (npamax f)
    (fun i _ => le_npamax f i)
  rw [nsmul_eq_mul, Finset.card_univ] at h
  linarith

lemma npmean_nonneg {ι : Type} [Fintype ι] (f : ι → ℚ) (h : ∀ i, 0 ≤ f i) :
    0 ≤ npmean f :=
  div_nonneg (Finset.sum_nonneg fun i _ => h i) (Nat.cast_nonneg _)

lemma npmean_const {ι : Type} [Fintype ι] [Nonempty ι] (c : ℚ) :
    npmean (fun _ : ι => c) = c := by
  rw [npmean, Finset.sum_const, Finset.card_univ, nsmul_eq_mul, mul_comm,
    mul_div_assoc, div_self (ne_of_gt (@card_cast_pos ι _ _)), mul_one]

lemma npamin_const {ι : Type} [Fintype ι] [Nonempty ι] (c : ℚ) :
    npamin (fun _ : ι => c) = c :=
  Finset.inf'_const _ c

lemma npamax_const {ι : Type} [Fintype ι] [Nonempty ι] (c : ℚ) :
    npamax (fun _ : ι => c) = c :=
  Finset.sup'_const _ c

lemma npstd_const {ι : Type} [Fintype ι] [Nonempty ι] (sq : ℚ → ℚ) (hsq : sq 0 = 0)
    (c : ℚ) : npstd sq (fun _ : ι => c) = 0 := by
  rw [npstd]
  have h1 : (fun i : ι => ((fun _ : ι => c) i - npmean fun _ : ι => c) ^ 2) =
      fun _ : ι => (0 : ℚ) := by
    funext i
    rw [npmean_const, sub_self, pow_two, mul_zero]
  rw [h1, npmean_const, hsq]

lemma npstd_nonneg {ι : Type} [Fintype ι] (sq : ℚ → ℚ)
    (hsq : ∀ x : ℚ, 0 ≤ x → 0 ≤ sq x) (f : ι → ℚ) : 0 ≤ npstd sq f :=
  hsq _ (npmean_nonneg _ fun _ => sq_nonneg _)

/-- Claim C1: for every 101-row, 6-column trajectory sample (column 0 = time,
columns 1..5 = a,e,i,Ω,ω), `parse` returns a single-row array of exactly 55
values, assembled strictly in the order: for each element, [initial (row 0),
final (last row), min, mean, max, stdev, range = max − min, rate_min,
rate_mean, rate_max, rate_range], where each rate (`rateCol`) is the first
difference of the element between consecutive rows divided by the
corresponding first difference of time. -/
theorem parse_output_order (sq : ℚ → ℚ) (data : Fin 101 → Fin 6 → ℚ) :
    parse sq 99 0 data = [parseRow sq 99 0 data] ∧
    (parseRow sq 99 0 data).length = 55 ∧
    ∀ k : Fin 5,
      ((parseRow sq 99 0 data).drop (11 * k.val)).take 11 =
        [elemCol 99 0 data (elemIdx 0 k) 0,
         elemCol 99 0 data (elemIdx 0 k) (Fin.last 100),
         npamin (elemCol 99 0 data (elemIdx 0 k)),
         npmean (elemCol 99 0 data (elemIdx 0 k)),
         npamax (elemCol 99 0 data (elemIdx 0 k)),
         npstd sq (elemCol 99 0 data (elemIdx 0 k)),
         npamax (elemCol 99 0 data (elemIdx 0 k)) -
           npamin (elemCol 99 0 data (elemIdx 0 k)),
         npamin (rateCol 99 0 data (elemIdx 0 k)),
         npmean (rateCol 99 0 data (elemIdx 0 k)),
         npamax (rateCol 99 0 data (elemIdx 0 k)),
         npamax (rateCol 99 0 data (elemIdx 0 k)) -
           npamin (rateCol 99 0 data (elemIdx 0 k))] :=
  ⟨rfl, rfl, fun k => featGroup_eq sq 99 0 data k⟩

/-- Claim C9: `parse` performs no shape validation.  For every matrix with at
least 2 rows (`m+2`) and at least 6 columns (`n+6`) — including row counts
other than the required 101 — it is total: it returns a single-row array of
55 values, and the statistics are taken over however many rows are present
(shown here for the mean entry of each group: the sum over all `m+2` rows
divided by `m+2`). -/
theorem parse_no_shape_validation (sq : ℚ → ℚ) (m n : ℕ)
    (data : Fin (m + 2) → Fin (n + 6) → ℚ) :
    parse sq m n data = [parseRow sq m n data] ∧
    (parseRow sq m n data).length = 55 ∧
    ∀ k : Fin 5,
      (featGroup sq m n data k).getD 3 0 =
        (∑ i, data i (elemIdx n k).succ) / ((m : ℚ) + 2) := by
  refine ⟨rfl, rfl, fun k => ?_⟩
  rw [featGroup_eq]
  show npmean (elemCol m n data (elemIdx n k)) = _
  rw [npmean, Fintype.card_fin]
  push_cast
  rfl

/-- A degenerate trajectory sample whose time column (column 0) is constant:
every adjacent time difference is zero. -/
def degenData : Fin 101 → Fin 6 → ℚ :=
  fun i j => if j.val = 0 then 0 else (i.val : ℚ)

/-- Claim C3 (evidence of the code/spec divergence): `parse` has no error
path.  On a 101×6 input in which consecutive rows have a zero time
difference, it silently performs the division (numpy emits `inf`/`nan`
values with only a warning; the rational model applies the division-by-zero
convention) and still returns a complete single-row, 55-value feature
vector; there is no `DegenerateTimestepError` anywhere in the source. -/
theorem parse_degenerate_timestep_no_error :
    degenData 1 0 - degenData 0 0 = 0 ∧
    parse id 99 0 degenData = [parseRow id 99 0 degenData] ∧
    (parseRow id 99 0 degenData).length = 55 :=
  ⟨by norm_num [degenData], rfl, rfl⟩

/-- Claim C8: constant-trajectory law.  If some element column holds one value
`c` in every row of a 101-row sample, then that element's feature group is
`[c, c, c, c, c, 0, 0, 0, 0, 0, 0]`: initial = final = min = mean = max = c,
stdev = 0, range = 0, and all four rate statistics are 0.  The hypothesis
`hdt` (nonzero adjacent time differences) is the TrajectorySample invariant
of strictly increasing checkpoint times; it keeps the statement within the
inputs on which the floating-point source also yields exactly these values
(numpy would produce NaN rates on a zero time difference).  `hsq` is the
square-root law `sq 0 = 0`, true of the real square root. -/
theorem parse_constant_column_law (sq : ℚ → ℚ) (data : Fin 101 → Fin 6 → ℚ)
    (k : Fin 5) (c : ℚ)
    (hconst : ∀ i : Fin 101, data i (elemIdx 0 k).succ = c)
    (hdt : ∀ i : Fin 100, data i.succ 0 - data i.castSucc 0 ≠ 0)
    (hsq : sq 0 = 0) :
    featGroup sq 99 0 data k = [c, c, c, c, c, 0, 0, 0, 0, 0, 0] := by
  have hcol : elemCol 99 0 data (elemIdx 0 k) = fun _ => c :=
    funext fun i => hconst i
  have hrate : rateCol 99 0 data (elemIdx 0 k) = fun _ => (0 : ℚ) := by
    funext i
    show (data i.succ (elemIdx 0 k).succ - data i.castSucc (elemIdx 0 k).succ) /
      (data i.succ 0 - data i.castSucc 0) = 0
    rw [hconst, hconst, sub_self, zero_div]
  rw [featGroup_eq, hcol, hrate]
  simp only [npamin_const, npamax_const, npmean_const, npstd_const sq hsq, sub_self]

/-- A 101×6 sample with time column 0,1,…,100 and every element column
constantly 3. -/
def constData : Fin 101 → Fin 6 → ℚ :=
  fun i j => if j.val = 0 then (i.val : ℚ) else 3

theorem parse_constant_column_law_witness :
    (∀ i : Fin 101, constData i (elemIdx 0 0).succ = 3) ∧
    (∀ i : Fin 100, constData i.succ 0 - constData i.castSucc 0 ≠ 0) ∧
    featGroup id 99 0 constData 0 = [3, 3, 3, 3, 3, 0, 0, 0, 0, 0, 0] :=
  ⟨fun i => by simp [constData, elemIdx], fun i => by simp [constData],
    parse_constant_column_law id constData 0 3
      (fun i => by simp [constData, elemIdx]) (fun i => by simp [constData]) rfl⟩

/-- Claim C10: internal consistency of every feature group.  Writing `g s` for
entry `s` of element `k`'s group ([0] initial, [1] final, [2] min, [3] mean,
[4] max, [5] stdev, [6] range, [7] rate_min, [8] rate_mean, [9] rate_max,
[10] rate_range): min ≤ mean ≤ max, initial and final lie in [min, max],
range = max − min ≥ 0, stdev ≥ 0, rate_min ≤ rate_mean ≤ rate_max and
rate_range = rate_max − rate_min ≥ 0, under the claim's assumption that all
adjacent time differences are positive and the square-root law that `sq` is
nonnegative on nonnegative inputs. -/
theorem parse_internal_consistency (sq : ℚ → ℚ) (m n : ℕ)
    (data : Fin (m + 2) → Fin (n + 6) → ℚ) (k : Fin 5)
    (hsq : ∀ x : ℚ, 0 ≤ x → 0 ≤ sq x)
    (hdt : ∀ i : Fin (m + 1), 0 < data i.succ 0 - data i.castSucc 0) :
    ((featGroup sq m n data k).getD 2 0 ≤ (featGroup sq m n data k).getD 3 0 ∧
      (featGroup sq m n data k).getD 3 0 ≤ (featGroup sq m n data k).getD 4 0) ∧
    ((featGroup sq m n data k).getD 2 0 ≤ (featGroup sq m n data k).getD 0 0 ∧
      (featGroup sq m n data k).getD 0 0 ≤ (featGroup sq m n data k).getD 4 0) ∧
    ((featGroup sq m n data k).getD 2 0 ≤ (featGroup sq m n data k).getD 1 0 ∧
      (featGroup sq m n data k).getD 1 0 ≤ (featGroup sq m n data k).getD 4 0) ∧
    ((featGroup sq m n data k).getD 6 0 =
        (featGroup sq m n data k).getD 4 0 - (featGroup sq m n data k).getD 2 0 ∧
      0 ≤ (featGroup sq m n data k).getD 6 0) ∧
    (0 ≤ (featGroup sq m n data k).getD 5 0) ∧
    ((featGroup sq m n data k).getD 7 0 ≤ (featGroup sq m n data k).getD 8 0 ∧
      (featGroup sq m n data k).getD 8 0 ≤ (featGroup sq m n data k).getD 9 0) ∧
    ((featGroup sq m n data k).getD 10 0 =
        (featGroup sq m n data k).getD 9 0 - (featGroup sq m n data k).getD 7 0 ∧
      0 ≤ (featGroup sq m n data k).getD 10 0) := by
  refine ⟨⟨?_, ?_⟩, ⟨?_, ?_⟩, ⟨?_, ?_⟩, ⟨?_, ?_⟩, ?_, ⟨?_, ?_⟩, ⟨?_, ?_⟩⟩ <;>
    simp only [featGroup_eq, List.getD_cons_zero, List.getD_cons_succ]
  · exact npamin_le_npmean _
  · exact npmean_le_npamax _
  · exact npamin_le _ 0
  · exact le_npamax _ 0
  · exact npamin_le _ (Fin.last (m + 1))
  · exact le_npamax _ (Fin.last (m + 1))
  · exact sub_nonneg.mpr (npamin_le_npamax _)
  · exact npstd_nonneg sq hsq _
  · exact npamin_le_npmean _
  · exact npmean_le_npamax _
  · exact sub_nonneg.mpr (npamin_le_npamax _)

theorem parse_internal_consistency_witness :
    (∀ x : ℚ, 0 ≤ x → 0 ≤ id x) ∧
    (∀ i : Fin 100, 0 < constData i.succ 0 - constData i.castSucc 0) ∧
    ((featGroup id 99 0 constData 0).getD 2 0 ≤ (featGroup id 99 0 constData 0).getD 3 0 ∧
      0 ≤ (featGroup id 99 0 constData 0).getD 5 0) :=
  ⟨fun _ h => h, fun i => by simp [constData],
    ⟨((parse_internal_consistency id 99 0 constData 0 (fun _ h => h)
        (fun i => by simp [constData])).1).1,
      (parse_internal_consistency id 99 0 constData 0 (fun _ h => h)
        (fun i => by simp [constData])).2.2.2.2.1⟩⟩

/-- A 101×6 sample whose first element column (column 1) is 101 at row 0 and 0
elsewhere: its 101 values have mean 1, population variance 10100/101 = 100
and sample variance 10100/100 = 101, so the two standard-deviation
conventions differ on it. -/
def c7data : Fin 101 → Fin 6 → ℚ :=
  fun i j => if i.val = 0 ∧ j.val = 1 then 101 else 0

/-- Claim C7: the stdev entry (position 5 of each element group) equals the
population standard deviation of the element's 101 values: `sq` applied to
the mean squared deviation with divisor N = 101.  The second and third
conjuncts separate the two conventions on a concrete sample (taking `sq =
id` so the variances are compared directly): the entry evaluates to
10100/101 = 100, whereas the sample convention with divisor N − 1 gives
10100/(101−1) = 101. -/
theorem parse_stdev_population :
    (∀ (sq : ℚ → ℚ) (data : Fin 101 → Fin 6 → ℚ) (k : Fin 5),
        (featGroup sq 99 0 data k).getD 5 0 =
          sq ((∑ i : Fin 101, (data i (elemIdx 0 k).succ -
                (∑ i2 : Fin 101, data i2 (elemIdx 0 k).succ) / 101) ^ 2) / 101)) ∧
    (featGroup id 99 0 c7data 0).getD 5 0 = 100 ∧
    (∑ i : Fin 101, (c7data i (elemIdx 0 0).succ -
        (∑ i2 : Fin 101, c7data i2 (elemIdx 0 0).succ) / 101) ^ 2) / (101 - 1) = 101 := by
  have hmain : ∀ (sq : ℚ → ℚ) (data : Fin 101 → Fin 6 → ℚ) (k : Fin 5),
      (featGroup sq 99 0 data k).getD 5 0 =
        sq ((∑ i : Fin 101, (data i (elemIdx 0 k).succ -
              (∑ i2 : Fin 101, data i2 (elemIdx 0 k).succ) / 101) ^ 2) / 101) := by
    intro sq data k
    rw [featGroup_eq]
    simp only [List.getD_cons_succ, List.getD_cons_zero]
    rw [npstd]
    simp only [npmean, Fintype.card_fin, Nat.cast_ofNat]
    rfl
  have hcol : ∀ i : Fin 101, c7data i (elemIdx 0 0).succ =
      if i = 0 then (101 : ℚ) else 0 := by
    intro i
    simp [c7data, elemIdx, Fin.ext_iff]
  have hsum : (∑ i : Fin 101, c7data i (elemIdx 0 0).succ) = 101 := by
    simp only [hcol]
    rw [Finset.sum_ite_eq' Finset.univ (0 : Fin 101) fun _ => (101 : ℚ)]
    simp
  have hvar : (∑ i : Fin 101, (c7data i (elemIdx 0 0).succ -
      (∑ i2 : Fin 101, c7data i2 (elemIdx 0 0).succ) / 101) ^ 2) = 10100 := by
    rw [hsum]
    norm_num
    have h2 : ∀ i : Fin 101, (c7data i (elemIdx 0 0).succ - 1) ^ 2 =
        (if i = 0 then (9999 : ℚ) else 0) + 1 := by
      intro i
      rw [hcol]
      by_cases h : i = 0 <;> simp [h] <;> norm_num
    simp only [h2]
    rw [Finset.sum_add_distrib,
      Finset.sum_ite_eq' Finset.univ (0 : Fin 101) fun _ => (9999 : ℚ),
      Finset.sum_const, Finset.card_univ, Fintype.card_fin]
    norm_num
  refine ⟨hmain, ?_, ?_⟩
  · rw [hmain id c7data 0, hvar]
    norm_num
  · rw [hvar]
    norm_num

/-- Python's float modulo `x % y` for `y = 360`: `x - y * ⌊x / y⌋` (the result
takes the sign of the divisor). -/
def pymod (x y : ℚ) : ℚ := x - y * ⌊x / y⌋

lemma pymod_eq_fract (x : ℚ) : pymod x 360 = 360 * Int.fract (x / 360) := by
  rw [pymod, Int.fract, mul_sub, mul_comm (360 : ℚ) (x / 360),
    div_mul_cancel₀ x (by norm_num : (360 : ℚ) ≠ 0)]

lemma pymod_nonneg (x : ℚ) : 0 ≤ pymod x 360 := by
  rw [pymod_eq_fract]
  exact mul_nonneg (by norm_num) (Int.fract_nonneg _)

lemma pymod_lt (x : ℚ) : pymod x 360 < 360 := by
  rw [pymod_eq_fract]
  calc 360 * Int.fract (x / 360) < 360 * 1 :=
        mul_lt_mul_of_pos_left (Int.fract_lt_one _) (by norm_num)
    _ = 360 := mul_one 360

/-- One checkpoint row recorded by `run_simulation`:
`step = np.array([t, o.a, o.e, np.degrees(o.inc), np.degrees(o.Omega)%360,
np.degrees(o.omega)%360])`.  The radians-to-degrees conversion performed by
the external integrator interface is the abstract parameter `deg`. -/
def step (deg : ℚ → ℚ) (t a e inc Om om : ℚ) : List ℚ :=
  [t, a, e, deg inc, pymod (deg Om) 360, pymod (deg om) 360]

/-- One Neptune trace-file line written by `run_simulation`:
`[int(-1), t, a, e, degrees(inc), degrees(Omega)%360, degrees(omega)%360,
degrees(M)%360]`. -/
def nLine (deg : ℚ → ℚ) (t a e inc Om om M : ℚ) : List ℚ :=
  [-1, t, a, e, deg inc, pymod (deg Om) 360, pymod (deg om) 360, pymod (deg M) 360]

/-- One target-body (KBO) trace-file line written by `run_simulation`: same
fields as `nLine` but tagged with id 0. -/
def kboLine (deg : ℚ → ℚ) (t a e inc Om om M : ℚ) : List ℚ :=
  [0, t, a, e, deg inc, pymod (deg Om) 360, pymod (deg om) 360, pymod (deg M) 360]

/-- Claim C6: whatever angle values the integrator returns, the Ω and ω values
recorded by `run_simulation` — position 4 and 5 of each TrajectorySample row
`step`, and positions 5 and 6 of both trace-file lines — lie in [0, 360);
and feeding the normalization a value of 370 degrees records 10, while −10
degrees records 350. -/
theorem run_simulation_angles_wrapped :
    (∀ (deg : ℚ → ℚ) (t a e inc Om om : ℚ),
        (0 ≤ (step deg t a e inc Om om).getD 4 0 ∧
          (step deg t a e inc Om om).getD 4 0 < 360) ∧
        (0 ≤ (step deg t a e inc Om om).getD 5 0 ∧
          (step deg t a e inc Om om).getD 5 0 < 360)) ∧
    (∀ (deg : ℚ → ℚ) (t a e inc Om om M : ℚ),
        (0 ≤ (nLine deg t a e inc Om om M).getD 5 0 ∧
          (nLine deg t a e inc Om om M).getD 5 0 < 360) ∧
        (0 ≤ (nLine deg t a e inc Om om M).getD 6 0 ∧
          (nLine deg t a e inc Om om M).getD 6 0 < 360) ∧
        (0 ≤ (kboLine deg t a e inc Om om M).getD 5 0 ∧
          (kboLine deg t a e inc Om om M).getD 5 0 < 360) ∧
        (0 ≤ (kboLine deg t a e inc Om om M).getD 6 0 ∧
          (kboLine deg t a e inc Om om M).getD 6 0 < 360)) ∧
    (step id 0 0 0 0 370 (-10)).getD 4 0 = 10 ∧
    (step id 0 0 0 0 370 (-10)).getD 5 0 = 350 := by
  have h370 : pymod 370 360 = 10 := by
    rw [pymod]
    have hf : ⌊(370 : ℚ) / 360⌋ = 1 := by
      rw [Int.floor_eq_iff]
      norm_num
    rw [hf]
    norm_num
  have hm10 : pymod (-10) 360 = 350 := by
    rw [pymod]
    have hf : ⌊(-10 : ℚ) / 360⌋ = -1 := by
      rw [Int.floor_eq_iff]
      norm_num
    rw [hf]
    norm_num
  refine ⟨fun deg t a e inc Om om => ?_, fun deg t a e inc Om om M => ?_, ?_, ?_⟩
  · exact ⟨⟨pymod_nonneg _, pymod_lt _⟩, ⟨pymod_nonneg _, pymod_lt _⟩⟩
  · exact ⟨⟨pymod_nonneg _, pymod_lt _⟩, ⟨pymod_nonneg _, pymod_lt _⟩,
      ⟨pymod_nonneg _, pymod_lt _⟩, ⟨pymod_nonneg _, pymod_lt _⟩⟩
  · show pymod (id (370 : ℚ)) 360 = 10
    exact h370
  · show pymod (id (-10 : ℚ)) 360 = 350
    exact hm10

/-- The column-reordering step of `compute_from_file`:
`data = np.array(data_t[:,co[0]])[:,np.newaxis]` followed by
`for i in co[1:]: data = np.concatenate((data, data_t[:,co[i]][:,np.newaxis]), axis=1)`.
The loop draws `i` from `co[1:]` — the values of `col_order` after the first
— and then appends column `data_t[:,co[i]]`, indexing `col_order` by its own
entries.  `col_order` is modelled as `co : Fin 6 → Fin 6` (its entries must
be below 6 for `co[i]` itself to be in range), cast into the `c+6` input
columns. -/
def sortColumns (r c : ℕ) (data_t : Fin r → Fin (c + 6) → ℚ) (co : Fin 6 → Fin 6) :
    List (Fin r → ℚ) :=
  (fun row => data_t row (Fin.castLE (Nat.le_add_left 6 c) (co 0))) ::
    (((List.finRange 6).drop 1).map co).map
      (fun i => fun row => data_t row (Fin.castLE (Nat.le_add_left 6 c) (co i)))

/-- `compute_from_file` without the file I/O: `data_t` stands for the table
`np.loadtxt(fname)` already in memory (`R+2` rows, `c+6` columns).
`data_t = data_t[:101,:]` keeps the first `min (R+2) 101 = min R 99 + 2`
rows (numpy slicing never fails on short input), the columns are reordered
by `sortColumns`, and the result is handed to `parse`. -/
def compute_from_file (sq : ℚ → ℚ) (R c : ℕ) (data_t : Fin (R + 2) → Fin (c + 6) → ℚ)
    (co : Fin 6 → Fin 6) : List (List ℚ) :=
  let dataT : Fin (min R 99 + 2) → Fin (c + 6) → ℚ := fun i j =>
    data_t (Fin.castLE (Nat.add_le_add_right (Nat.min_le_left R 99) 2) i) j
  let cols : List (Fin (min R 99 + 2) → ℚ) := sortColumns (min R 99 + 2) c dataT co
  parse sq (min R 99) 0 fun i j => cols.getD j.val (fun _ => 0) i

/-- A non-identity `col_order`: `[0, 2, 1, 3, 4, 5]` (the claim's reading
would put input column 2 into output column 1). -/
def c2co : Fin 6 → Fin 6 := ![0, 2, 1, 3, 4, 5]

/-- Claim C2 (evidence of the indexing bug): with
`col_order = [0, 2, 1, 3, 4, 5]`, output column 1 built by the
`compute_from_file` column loop is input column `co[co[1]] = co[2] = 1` —
for every input table — and not input column `co[1] = 2` as the claim
states.  (With the default identity order `co[co[j]] = co[j]`, so the slip
is invisible there.) -/
theorem compute_from_file_column_order_bug :
    (∀ data_t : Fin 2 → Fin 6 → ℚ,
        (sortColumns 2 0 data_t c2co).getD 1 (fun _ => 0) = fun row => data_t row 1) ∧
    (c2co 1).val = 2 :=
  ⟨fun _ => rfl, rfl⟩

/-- A 50-row, 6-column table. -/
def cShort : Fin 50 → Fin 6 → ℚ := fun i j => (i.val : ℚ) + (j.val : ℚ)

/-- Claim C4 (counterexample to its error half): on a 50-row table,
`compute_from_file` raises nothing — `data_t[:101,:]` keeps all 50 rows and
a complete single-row, 55-value feature vector is returned.  No
`InsufficientDataError` (nor any row-count check) exists in the source. -/
theorem compute_from_file_short_no_error :
    (compute_from_file id 48 0 cShort (fun j => j)).length = 1 ∧
    ((compute_from_file id 48 0 cShort (fun j => j)).getD 0 []).length = 55 :=
  ⟨rfl, rfl⟩

/-- Claim C4 as amended: for every input size, `compute_from_file` raises no
error and returns a single-row, 55-value vector (if fewer than 101 rows are
available the statistics are simply computed from the rows present), and
only the first 101 rows of the input influence the result: two tables that
agree on rows 0..100 produce identical output, so rows beyond 101 are
silently ignored. -/
theorem compute_from_file_row_handling :
    (∀ (sq : ℚ → ℚ) (R c : ℕ) (data_t : Fin (R + 2) → Fin (c + 6) → ℚ)
        (co : Fin 6 → Fin 6),
        (compute_from_file sq R c data_t co).length = 1 ∧
        ((compute_from_file sq R c data_t co).getD 0 []).length = 55) ∧
    (∀ (sq : ℚ → ℚ) (R c : ℕ) (dA dB : Fin (R + 2) → Fin (c + 6) → ℚ)
        (co : Fin 6 → Fin 6),
        (∀ i : Fin (R + 2), i.val < 101 → ∀ j, dA i j = dB i j) →
        compute_from_file sq R c dA co = compute_from_file sq R c dB co) := by
  constructor
  · intro sq R c data_t co
    exact ⟨rfl, parseRow_length sq (min R 99) 0 _⟩
  · intro sq R c dA dB co hagree
    have hdataT : (fun (i : Fin (min R 99 + 2)) (j : Fin (c + 6)) =>
        dA (Fin.castLE (Nat.add_le_add_right (Nat.min_le_left R 99) 2) i) j) =
        fun (i : Fin (min R 99 + 2)) (j : Fin (c + 6)) =>
          dB (Fin.castLE (Nat.add_le_add_right (Nat.min_le_left R 99) 2) i) j := by
      funext i j
      refine hagree _ ?_ j
      have h1 := i.isLt
      have h2 := Nat.min_le_right R 99
      show i.val < 101
      omega
    simp only [compute_from_file]
    rw [hdataT]

/-- A 150-row table: 5 on the first 101 rows, 9 on the rows beyond. -/
def c4A : Fin 150 → Fin 6 → ℚ := fun i _ => if i.val < 101 then 5 else 9

/-- A 150-row table: 5 on the first 101 rows, 7 on the rows beyond — agrees
with `c4A` exactly on the first 101 rows. -/
def c4B : Fin 150 → Fin 6 → ℚ := fun i _ => if i.val < 101 then 5 else 7

theorem compute_from_file_row_handling_witness :
    (∀ i : Fin 150, i.val < 101 → ∀ j : Fin 6, c4A i j = c4B i j) ∧
    compute_from_file id 148 0 c4A (fun j => j) =
      compute_from_file id 148 0 c4B (fun j => j) :=
  ⟨fun i hi j => by simp [c4A, c4B, hi],
    compute_from_file_row_handling.2 id 148 0 c4A c4B (fun j => j)
      (fun i hi j => by simp [c4A, c4B, hi])⟩

/-- The keyword arguments of the `sim.add(...)` call that `compute_from_aei`
makes to insert the target body.  `primary` is the reference body/frame
argument of the external integrator: `none` models Python's `None`; the
payload of `some` stands for a computed center-of-mass particle
(`sim.calculate_com()`). -/
structure AddArgs where
  a : ℚ
  e : ℚ
  inc : ℚ
  omega : ℚ
  Omega : ℚ
  M : ℚ
  primary : Option ℚ

/-- The body-insertion step of `compute_from_aei`:
`if barycentric: primary = sim.calculate_com()` / `else: primary = None`,
followed by
`sim.add(a=a, e=ecc, inc=np.radians(inc), omega=np.radians(omega),
Omega=np.radians(Omega), M=np.radians(M), primary=None)`.
The local variable `primary` is computed exactly as in the source — and, as
in the source, never used: the call passes the literal `None`.  The
degrees-to-radians conversion `np.radians` is the abstract parameter
`rad`; `com` stands for the value of `sim.calculate_com()`. -/
def compute_from_aei_add (rad : ℚ → ℚ) (a ecc inc Om om M : ℚ)
    (barycentric : Bool) (com : ℚ) : AddArgs :=
  let primary : Option ℚ := if barycentric then some com else none
  { a := a, e := ecc, inc := rad inc, omega := rad om, Omega := rad Om,
    M := rad M, primary := none }

/-- Claim C5 (evidence of the bug): the frame argument `primary` that
`compute_from_aei` passes to `sim.add` for the target body is `None` for
both values of the `barycentric` flag — the whole `sim.add` argument list
is identical for `barycentric=True` and `barycentric=False` — so the frame
in which the six orbital elements are interpreted does not depend on the
flag, contradicting the claim (and the function's own docstring).  The
computed `primary` local is dead code. -/
theorem compute_from_aei_frame_ignores_flag :
    ∀ (rad : ℚ → ℚ) (a ecc inc Om om M com : ℚ),
      (compute_from_aei_add rad a ecc inc Om om M true com).primary = none ∧
      compute_from_aei_add rad a ecc inc Om om M true com =
        compute_from_aei_add rad a ecc inc Om om M false com :=
  fun _ _ _ _ _ _ _ _ => ⟨rfl, rfl⟩

end KBO
